import Mathlib

/-!
Verification of the RAG chatbot core (tool-calling orchestration, retrieval
tool layer, link annotation) against its natural-language specification.

The repository provides `backend/rag_system.py` together with its test suite.
The modules `ai_generator.py`, `search_tools.py` and `vector_store.py` are
referenced by `rag_system.py` and exercised by the tests but their code is not
part of the staged sources; definitions for them are modelled from the
specification (and the behaviour pinned by the repository's tests), each marked
`Modelled from the spec:` in its doc comment.  Everything for
`rag_system.py` is translated directly from that file.

Strings are modelled as Lean `String`/`List Char` (the code operates on ASCII
text); the index's distances are modelled as rationals; Python's `round`
(which is half-to-even) is modelled by Mathlib's `round` (half-up) — the only
boundary case any claim touches, `round 92.5`, is allowed by the spec to land
on either side.
-/

/-! ## Data model: sources, search results (vector_store.py, search_tools.py) -/

/-- A citation record as tracked by the search tool and surfaced to the caller:
`{text, link, score}` (spec section 3, "Source"). -/
structure Source where
  text : String
  link : Option String
  score : ℤ
deriving DecidableEq, Repr

/-- Per-row metadata of a retrieval result (carries `course_title` and
`lesson_number`, the latter optional). -/
structure RowMeta where
  course_title : String
  lesson_number : Option Nat
deriving DecidableEq, Repr

/-- Modelled from the spec: the `SearchResults` batch result of
`vector_store.py` (not in the staged sources) — parallel sequences
`documents`, `metadata`, `distances` plus an optional `error` string. -/
structure SearchResults where
  documents : List String
  metadata : List RowMeta
  distances : List ℚ
  error : Option String
deriving DecidableEq, Repr

/-- Modelled from the spec: `SearchResults.is_empty`, true exactly when the
documents sequence has zero length. -/
def SearchResults.is_empty (r : SearchResults) : Bool :=
  r.documents.isEmpty

/-- Modelled from the spec: `SearchResults.from_chroma`, building a result
from the backing index's parallel sequences, with no error set. -/
def SearchResults.from_chroma (docs : List String) (metas : List RowMeta)
    (dists : List ℚ) : SearchResults :=
  ⟨docs, metas, dists, none⟩

/-- Modelled from the spec: `SearchResults.empty`, the error constructor —
an error message and all three sequences empty. -/
def SearchResults.empty (msg : String) : SearchResults :=
  ⟨[], [], [], some msg⟩

/-- A `SearchResults` value produced by one of the two constructors of the
Retrieval Gateway: `from_chroma` applied to a backing-index result (whose
ranked parallel sequences have equal length, spec section 6) or the error
constructor. -/
def ProducedSearchResults (r : SearchResults) : Prop :=
  (∃ docs metas dists, docs.length = metas.length ∧ metas.length = dists.length ∧
      r = SearchResults.from_chroma docs metas dists) ∨
  ∃ msg, r = SearchResults.empty msg

/-! ## Search tool (search_tools.py, modelled from the spec) -/

/-- Modelled from the spec: the per-row relevance score of the Search Tool,
`max(0, round(100 - distance * 50))` (spec section 4.2). -/
def relevanceScore (d : ℚ) : ℤ :=
  max 0 (round ((100 : ℚ) - d * 50))

/-- Modelled from the spec: the source `text` field,
`"<course_title> - Lesson <lesson_number>"`, or just the course title when no
lesson number is present. -/
def sourceText (m : RowMeta) : String :=
  match m.lesson_number with
  | some n => m.course_title ++ " - Lesson " ++ Nat.repr n
  | none => m.course_title

/-- Modelled from the spec: one `Source` per result row — `link` is the
lesson's link if resolvable, else the course's link. -/
def mkSource (lessonLink : String → Nat → Option String)
    (courseLink : String → Option String) (m : RowMeta) (d : ℚ) : Source :=
  { text := sourceText m
    link :=
      match m.lesson_number with
      | some n =>
        match lessonLink m.course_title n with
        | some l => some l
        | none => courseLink m.course_title
      | none => courseLink m.course_title
    score := relevanceScore d }

/-- Modelled from the spec: the per-row header
`"[<course_title> - Lesson <lesson_number>]"`, the lesson suffix omitted when
`lesson_number` is absent. -/
def rowHeader (m : RowMeta) : String :=
  match m.lesson_number with
  | some n => "[" ++ m.course_title ++ " - Lesson " ++ Nat.repr n ++ "]"
  | none => "[" ++ m.course_title ++ "]"

/-- The index-aligned rows of a result: document, metadata and distance,
in the index's own ranking order. -/
def searchRows (r : SearchResults) : List (String × RowMeta × ℚ) :=
  r.documents.zip (r.metadata.zip r.distances)

/-- Modelled from the spec: the active-filter suffix of the empty-result
message — filter clauses joined by `" in "`, each rendered as
`course '<name>'` and/or `lesson <n>`. -/
def filterInfo (course_name : Option String) (lesson_number : Option Nat) : String :=
  (match course_name with
   | some c => " in course '" ++ c ++ "'"
   | none => "") ++
  (match lesson_number with
   | some n => " in lesson " ++ Nat.repr n
   | none => "")

/-- The outcome of one `CourseSearchTool.execute` invocation: the returned
text and the `last_sources` list it records (empty on the error and
no-result paths, which record no rows). -/
structure ExecOutcome where
  output : String
  last_sources : List Source
deriving DecidableEq, Repr

/-- Modelled from the spec: `CourseSearchTool.execute` (spec section 4.2).
Delegates to the Retrieval Gateway (`search`), returns the error string
verbatim when `error` is set, the `"No relevant content found"` message with
the active filter clauses when results are empty, and otherwise the formatted
rows joined by a blank line, recording one `Source` per row. -/
def CourseSearchTool.execute
    (search : String → Option String → Option Nat → SearchResults)
    (lessonLink : String → Nat → Option String)
    (courseLink : String → Option String)
    (query : String) (course_name : Option String) (lesson_number : Option Nat) :
    ExecOutcome :=
  let results := search query course_name lesson_number
  match results.error with
  | some e => ⟨e, []⟩
  | none =>
    if results.is_empty then
      ⟨"No relevant content found" ++ filterInfo course_name lesson_number, []⟩
    else
      ⟨String.intercalate "\n\n"
        ((searchRows results).map (fun row => rowHeader row.2.1 ++ "\n" ++ row.1)),
       (searchRows results).map (fun row => mkSource lessonLink courseLink row.2.1 row.2.2)⟩

/-! ## Tool registry (search_tools.py, modelled from the spec) -/

/-- Parameters of a tool invocation, an opaque record of named values. -/
abbrev ToolParams := List (String × String)

/-- A registered tool: its unique declared name and its `execute` operation,
which always yields text (spec section 4.4). -/
structure RegisteredTool where
  name : String
  execute : ToolParams → String

/-- Modelled from the spec: `ToolManager.execute_tool` — dispatches to the
matching tool's `execute` by name; if no tool has that name, returns
`"Tool '<name>' not found"` rather than failing the caller.  Totality of this
Lean function is the non-throwing contract: every invocation yields a string. -/
def ToolManager.execute_tool (tools : List RegisteredTool) (name : String)
    (params : ToolParams) : String :=
  match tools.find? (fun t => t.name == name) with
  | some t => t.execute params
  | none => "Tool '" ++ name ++ "' not found"

/-! ## Tool-calling orchestrator (ai_generator.py, modelled from the spec)

The model-completion capability is a function of the system text, the
accumulated message list and whether the `tools` field is sent; a tool
executor maps a tool name and input to result text (the Tool Registry's
dispatch).  The protocol is spec section 4.5, its call/invocation counts
pinned by `tests/test_ai_generator.py` (`TestSequentialToolCalling`). -/

/-- The two recognized response shapes' stop reasons, plus a third,
unrecognized one (spec: "must not crash on a third"). -/
inductive StopReason where
  | end_turn
  | tool_use
  | other
deriving DecidableEq, Repr

/-- A content block of a model response: a text block or a tool-use request
`{id, name, input}`. -/
inductive ContentBlock where
  | text (t : String)
  | tool_use (id name : String) (input : ToolParams)
deriving DecidableEq

/-- A model response: a stop reason and a list of content blocks. -/
structure ModelResponse where
  stop_reason : StopReason
  content : List ContentBlock
deriving DecidableEq

/-- A conversation turn's content: the user's text, the assistant's content
blocks echoed back, or tool results tagged with their request ids. -/
inductive MessageContent where
  | text (s : String)
  | blocks (bs : List ContentBlock)
  | toolResults (rs : List (String × String))

/-- The role of a conversation turn. -/
inductive Role where
  | user
  | assistant

/-- One turn of the accumulated message list. -/
structure Message where
  role : Role
  content : MessageContent

/-- The model-completion capability: system text, messages, and whether the
request carries the `tools` field, to a response. -/
abbrev Model := String → List Message → Bool → ModelResponse

/-- The tool-execution capability (the Tool Registry's dispatch): tool name
and input to result text. -/
abbrev ToolExec := String → ToolParams → String

/-- Modelled from the spec: the final text extracted from a response — the
first text block's text, or the empty string if none (the defensive
`ProtocolAnomaly` fallback of spec section 7). -/
def responseText (r : ModelResponse) : String :=
  match r.content.findSome? (fun b =>
    match b with
    | ContentBlock.text t => some t
    | ContentBlock.tool_use _ _ _ => none) with
  | some t => t
  | none => ""

/-- Executes every tool-use block of a response's content through the tool
executor, in order, pairing each result with its request id. -/
def execBlocks (e : ToolExec) (bs : List ContentBlock) : List (String × String) :=
  bs.filterMap (fun b =>
    match b with
    | ContentBlock.text _ => none
    | ContentBlock.tool_use id name input => some (id, e name input))

/-- The number of tool-use blocks in a response's content. -/
def toolUseCount (bs : List ContentBlock) : Nat :=
  (bs.filterMap (fun b =>
    match b with
    | ContentBlock.text _ => none
    | ContentBlock.tool_use id _ _ => some id)).length

/-- The observable outcome of one `generate_response` run: the returned
answer, the number of tool invocations executed, the number of tool-bearing
rounds consumed, and every model call made, in order, each tagged with
whether the `tools` field was sent on that call. -/
structure OrchTrace where
  answer : String
  toolInvocations : Nat
  toolRounds : Nat
  calls : List (Bool × ModelResponse)

/-- The total number of model calls of a run. -/
def OrchTrace.modelCalls (t : OrchTrace) : Nat :=
  t.calls.length

/-- Modelled from the spec: the bounded tool loop of the Orchestrator
(spec section 4.5, steps 1-6).  Each iteration calls the model with the
`tools` field; a text (or unrecognized) response is terminal; a tool-use
response with rounds remaining executes every tool-use block, appends the
assistant turn and the tool-result turn, and loops; a tool-use response with
no rounds remaining triggers exactly one forced final call without the
`tools` field, whose text is returned and whose tool requests, if any, are
never executed. -/
def toolLoop (m : Model) (e : ToolExec) (system : String) :
    Nat → List Message → OrchTrace
  | 0, msgs =>
    let resp := m system msgs true
    if resp.stop_reason = StopReason.tool_use then
      let final := m system msgs false
      ⟨responseText final, 0, 0, [(true, resp), (false, final)]⟩
    else
      ⟨responseText resp, 0, 0, [(true, resp)]⟩
  | r + 1, msgs =>
    let resp := m system msgs true
    if resp.stop_reason = StopReason.tool_use then
      let results := execBlocks e resp.content
      let msgs2 := msgs ++
        [⟨Role.assistant, MessageContent.blocks resp.content⟩,
         ⟨Role.user, MessageContent.toolResults results⟩]
      let rest := toolLoop m e system r msgs2
      ⟨rest.answer, rest.toolInvocations + results.length, rest.toolRounds + 1,
       (true, resp) :: rest.calls⟩
    else
      ⟨responseText resp, 0, 0, [(true, resp)]⟩

/-- Modelled from the spec: the system text, with the opaque conversation
history prepended to the base instructions when present. -/
def buildSystem (history : Option String) : String :=
  match history with
  | some h => "Answer questions about course materials using the provided tools.\n\nPrevious conversation:\n" ++ h
  | none => "Answer questions about course materials using the provided tools."

/-- Modelled from the spec: `AIGenerator.generate_response` — the
Orchestrator's public operation.  With tools offered it runs the bounded tool
loop with round bound `maxRounds` (the documented default is 2); without
tools it makes a single call with no `tools` field. -/
def generate_response (m : Model) (e : ToolExec) (query : String)
    (history : Option String) (tools : Bool) (maxRounds : Nat) : OrchTrace :=
  let system := buildSystem history
  let msgs : List Message := [⟨Role.user, MessageContent.text query⟩]
  if tools then
    toolLoop m e system maxRounds msgs
  else
    let resp := m system msgs false
    ⟨responseText resp, 0, 0, [(false, resp)]⟩

/-! ## Link annotation (rag_system.py, translated from the source)

`RAGSystem._add_course_links` and `RAGSystem._add_lesson_links` are pure
text rewrites built on Python `re.sub` over literal (escaped) patterns; they
are modelled here on `List Char`, scanning left to right with non-overlapping
leftmost matches, exactly as `re.sub` does.  The vector store collaborator is
a parameter: the course catalog rows (`get_all_courses_metadata`) and the
lesson-link lookup (`get_lesson_link`). -/

/-- One row of `get_all_courses_metadata()`: a course title and its optional
link. -/
structure CourseMeta where
  title : String
  course_link : Option String
deriving DecidableEq, Repr

/-- Whether `pat` occurs as a contiguous substring (Python's `in`). -/
def containsSub (pat : List Char) : List Char → Bool
  | [] => pat.isEmpty
  | c :: rest => pat.isPrefixOf (c :: rest) || containsSub pat rest

/-- The markdown replacement `[title](link)` of the course pass
(rag_system.py line 203). -/
def courseRepl (title link : List Char) : List Char :=
  '[' :: (title ++ (']' :: '(' :: (link ++ [')'])))

/-- The length matched at the head of `s` by the course pattern
`"<title>"|<title>` (rag_system.py line 199): the quoted alternative first,
then the bare title.  A (never-occurring) empty bare title is treated as no
match. -/
def matchLenCourse (title : List Char) (s : List Char) : Nat :=
  if ('"' :: (title ++ ['"'])).isPrefixOf s then title.length + 2
  else if !title.isEmpty && title.isPrefixOf s then title.length
  else 0

/-- `re.sub` of the course pattern over `s`, replacing every non-overlapping
leftmost occurrence by `courseRepl` (replacement text is not rescanned).
`fuel` bounds the scan; it is instantiated with `s.length`, which every step
strictly decreases by at least the characters consumed. -/
def subCourseAux (title link : List Char) : Nat → List Char → List Char
  | 0, s => s
  | fuel + 1, s =>
    match s with
    | [] => []
    | c :: rest =>
      let n := matchLenCourse title s
      if n = 0 then c :: subCourseAux title link fuel rest
      else courseRepl title link ++ subCourseAux title link fuel (s.drop n)

/-- All occurrences of the course pattern in `s` replaced by the markdown
link. -/
def subCourse (title link : List Char) (s : List Char) : List Char :=
  subCourseAux title link s.length s

/-- `[<title>]`, the already-a-markdown-link skip marker
(rag_system.py line 194). -/
def bracketed (t : List Char) : List Char :=
  '[' :: (t ++ [']'])

/-- One iteration of the course-pass loop body (rag_system.py lines 187-205):
skip the course when it has no link or when `[title]` already occurs in the
current response, else rewrite every pattern occurrence. -/
def applyCourse (resp : List Char) (c : CourseMeta) : List Char :=
  match c.course_link with
  | none => resp
  | some link =>
    if containsSub (bracketed c.title.data) resp then resp
    else subCourse c.title.data link.data resp

/-- Stable insertion into a list sorted by title length, descending: among
equal lengths the inserted (originally earlier) element comes first, matching
Python's stable `sort(key=len, reverse=True)`. -/
def insertByLenDesc (c : CourseMeta) : List CourseMeta → List CourseMeta
  | [] => [c]
  | d :: ds =>
    if c.title.length < d.title.length then d :: insertByLenDesc c ds
    else c :: d :: ds

/-- The catalog sorted by title length, longest first, stably
(rag_system.py line 184). -/
def sortByLenDesc : List CourseMeta → List CourseMeta
  | [] => []
  | c :: cs => insertByLenDesc c (sortByLenDesc cs)

/-- `RAGSystem._add_course_links` (rag_system.py lines 177-207): sort the
catalog longest-title-first, then fold the per-course rewrite over the
response. -/
def add_course_links (courses : List CourseMeta) (resp : String) : String :=
  ⟨(sortByLenDesc courses).foldl applyCourse resp.data⟩

/-- Python's word character (`\w`, ASCII): letter, digit or underscore. -/
def isWordChar (c : Char) : Bool :=
  c.isAlpha || c.isDigit || c == '_'

/-- The `\b` word-boundary test before a match of a word character, given the
preceding character (none at the start of the string). -/
def boundaryOk (prev : Option Char) : Bool :=
  match prev with
  | none => true
  | some c => !isWordChar c

/-- The characters `esson`, the invariable tail of the lesson word. -/
def essonChars : List Char :=
  ['e', 's', 's', 'o', 'n']

/-- The numeric value of a digit run. -/
def natOfDigits (ds : List Char) : Nat :=
  ds.foldl (fun n c => n * 10 + (c.toNat - 48)) 0

/-- A match of the pattern `\b([Ll]esson)\s+(\d+)\b` starting at the head of
`rem`, whose preceding character is `prev`: the matched lesson word, the
numeric value of the digit group, and the total matched length.  `none` when
the pattern does not match at this position. -/
def matchLessonAt (prev : Option Char) (rem : List Char) :
    Option (List Char × Nat × Nat) :=
  if boundaryOk prev then
    match rem with
    | [] => none
    | c :: rest =>
      if c == 'L' || c == 'l' then
        if essonChars.isPrefixOf rest then
          let after := rest.drop 5
          let ws := after.takeWhile Char.isWhitespace
          let afterWs := after.dropWhile Char.isWhitespace
          let digits := afterWs.takeWhile Char.isDigit
          let afterDigits := afterWs.dropWhile Char.isDigit
          if ws.isEmpty || digits.isEmpty then none
          else if (afterDigits.head?.map isWordChar).getD false then none
          else some (c :: essonChars, natOfDigits digits, 6 + ws.length + digits.length)
        else none
      else none
  else none

/-- The suffix of `l` starting at its last `[`, or `none` when `l` has no
`[` (Python's `prefix[prefix.rfind("["):]`). -/
def suffixFromLastOpen : List Char → Option (List Char)
  | [] => none
  | c :: rest =>
    match suffixFromLastOpen rest with
    | some s => some s
    | none => if c == '[' then some (c :: rest) else none

/-- The already-inside-a-markdown-link test of the lesson pass
(rag_system.py lines 246-252): scan the up-to-50 characters before position
`pos` of the original response; inside link text when they contain a `[`
whose suffix holds no `](`. -/
def insideLinkText (orig : List Char) (pos : Nat) : Bool :=
  let pre := (orig.take pos).drop (pos - 50)
  match suffixFromLastOpen pre with
  | none => false
  | some s => !containsSub [']', '('] s

/-- `re.sub` of the lesson pattern over the response: at each position, an
unmatched position emits its character; a match emits either the original
matched text (when inside link text, or when no link is found for the lesson
number) or `[<word> <n>](<link>)` with the number re-rendered from its
numeric value (Python's `int` round-trip).  `orig` is the whole original
response (the lookback window reads it); `fuel` is instantiated with the
response length, which bounds the scan. -/
def lessonSubAux (orig : List Char) (linkFor : Nat → Option String) :
    Nat → Option Char → Nat → List Char → List Char
  | 0, _, _, rem => rem
  | _ + 1, _, _, [] => []
  | fuel + 1, prev, pos, c :: rest =>
    match matchLessonAt prev (c :: rest) with
    | none => c :: lessonSubAux orig linkFor fuel (some c) (pos + 1) rest
    | some (word, num, len) =>
      let matched := (c :: rest).take len
      let repl :=
        if insideLinkText orig pos then matched
        else
          match linkFor num with
          | some link =>
            '[' :: (word ++ (' ' :: ((Nat.repr num).data ++
              (']' :: '(' :: (link.data ++ [')'])))))
          | none => matched
      repl ++ lessonSubAux orig linkFor fuel matched.getLast? (pos + len)
        ((c :: rest).drop len)

/-- The whole lesson-pattern rewrite of a response, every `Lesson N` mention
resolved through `linkFor`. -/
def lessonPass (linkFor : Nat → Option String) (resp : String) : String :=
  ⟨lessonSubAux resp.data linkFor resp.data.length none 0 resp.data⟩

/-- The characters ` - Lesson`, the literal delimiter splitting a source's
text into course title and lesson part. -/
def lessonDelim : List Char :=
  [' ', '-', ' ', 'L', 'e', 's', 's', 'o', 'n']

/-- The part of `l` before the first occurrence of the delimiter; all of `l`
when the delimiter does not occur (Python's `text.split(" - Lesson")[0]`,
applied only when the delimiter is present — the two branches coincide). -/
def beforeDelim : List Char → List Char
  | [] => []
  | c :: rest =>
    if lessonDelim.isPrefixOf (c :: rest) then []
    else c :: beforeDelim rest

/-- The course titles recovered from the sources' text fields
(rag_system.py lines 220-228): each text split on the delimiter, empty
titles dropped. -/
def extractTitles (sources : List Source) : List String :=
  sources.filterMap (fun s =>
    let t : String := ⟨beforeDelim s.text.data⟩
    if t = "" then none else some t)

/-- Deduplication keeping first occurrences, in order (the insertion order of
Python's `Counter`). -/
def firstOccAux (seen : List String) : List String → List String
  | [] => []
  | x :: xs =>
    if x ∈ seen then firstOccAux seen xs
    else x :: firstOccAux (x :: seen) xs

/-- The earliest element of `u` whose occurrence count in `l` is maximal
(`Counter(l).most_common(1)`, whose stable sort keeps first-insertion order
on ties). -/
def bestOf (l : List String) : List String → Option String
  | [] => none
  | t :: ts =>
    match bestOf l ts with
    | none => some t
    | some b => if l.count b ≤ l.count t then some t else some b

/-- The most common title of `l`, ties resolved to the earliest first
occurrence. -/
def mostCommonTitle (l : List String) : Option String :=
  bestOf l (firstOccAux [] l)

/-- `RAGSystem._add_lesson_links` (rag_system.py lines 209-262): unchanged
when `sources` is empty or recovers no course title; otherwise the lesson
pattern is rewritten with every lookup made for the single primary course —
the most frequent recovered title. -/
def add_lesson_links (lookup : String → Nat → Option String) (resp : String)
    (sources : List Source) : String :=
  match sources with
  | [] => resp
  | _ :: _ =>
    match mostCommonTitle (extractTitles sources) with
    | none => resp
    | some primary => lessonPass (lookup primary) resp

/-- The link-annotation step of `RAGSystem.query` (rag_system.py lines
154-158): the course-link pass followed by the lesson-link pass. -/
def annotateLinks (courses : List CourseMeta)
    (lookup : String → Nat → Option String) (sources : List Source)
    (resp : String) : String :=
  add_lesson_links lookup (add_course_links courses resp) sources

/-! ## RAGSystem.query source handling (rag_system.py with the Tool Registry
modelled from the spec) -/

/-- Modelled from the spec: the mutable per-tool source-tracking state of the
Tool Registry — each registered tool's `last_sources`, in registration order,
and the index of the most recently invoked tool. -/
structure ToolManagerState where
  toolSources : List (List Source)
  lastInvoked : Option Nat
deriving DecidableEq, Repr

/-- Modelled from the spec: `ToolManager.get_last_sources` — the most
recently invoked tool's `last_sources`, an empty list when no tool ran. -/
def ToolManager.get_last_sources (tm : ToolManagerState) : List Source :=
  match tm.lastInvoked with
  | some i => tm.toolSources.getD i []
  | none => []

/-- Modelled from the spec: `ToolManager.reset_sources` — clears every
registered tool's `last_sources`. -/
def ToolManager.reset_sources (tm : ToolManagerState) : ToolManagerState :=
  ⟨tm.toolSources.map (fun _ => []), tm.lastInvoked⟩

/-- `RAGSystem.query` after the `generate_response` call returns
(rag_system.py lines 150-168): `aiResponse` is the generated text and `tm`
the tool manager's state at that point.  The sources snapshot is taken, the
response annotated, and only then are the tool manager's sources reset; the
pair `(annotated response, snapshot)` is returned together with the tool
manager's final state. -/
def RAGSystem.query (courses : List CourseMeta)
    (lookup : String → Nat → Option String) (aiResponse : String)
    (tm : ToolManagerState) : (String × List Source) × ToolManagerState :=
  let sources := ToolManager.get_last_sources tm
  let resp1 := add_course_links courses aiResponse
  let resp2 := add_lesson_links lookup resp1 sources
  ((resp2, sources), ToolManager.reset_sources tm)

/-! ## Concrete instances used by witnesses and counterexamples -/

/-- The tool-use response of the repository's test fixtures
(`mock_anthropic_response_with_tool`). -/
def toolResp : ModelResponse :=
  ⟨StopReason.tool_use,
   [ContentBlock.tool_use "tool_123" "search_course_content"
     [("query", "Python programming")]]⟩

/-- The final text response of the repository's test fixtures
(`mock_anthropic_final_response`). -/
def finalResp : ModelResponse :=
  ⟨StopReason.end_turn,
   [ContentBlock.text "Based on the course materials, Python is a programming language."]⟩

/-- A model behaviour that requests one tool use on every call that offers
tools, and answers with text when tools are absent
(the test `test_max_rounds_enforced`). -/
def alwaysToolModel : Model :=
  fun _ _ tools => if tools then toolResp else finalResp

/-- The catalog of the claimed partial-match scenario: the course
`"MCP: Build Rich-Context AI Apps"` and the distinct shorter course `"MCP"`,
both with links. -/
def mcpCatalog : List CourseMeta :=
  [⟨"MCP: Build Rich-Context AI Apps", some "https://ex.com/a"⟩,
   ⟨"MCP", some "https://ex.com/b"⟩]

/-- A two-course catalog on which re-annotation is not idempotent: the
shorter course's link contains the longer course's title. -/
def crossLinkCatalog : List CourseMeta :=
  [⟨"Alpha", some "http://x"⟩, ⟨"B", some "http://Alpha"⟩]

/-- A lesson-link lookup resolving no lesson at all. -/
def noLessonLinks : String → Nat → Option String :=
  fun _ _ => none

/-- A lesson-link lookup resolving lessons of the course `"A"` only. -/
def demoLookup : String → Nat → Option String :=
  fun c n => if c = "A" then some ("http://a/" ++ Nat.repr n) else none

/-- Sources spanning two courses, the course `"A"` the more frequent. -/
def demoSources : List Source :=
  [⟨"A - Lesson 1", none, 93⟩, ⟨"B - Lesson 2", none, 90⟩,
   ⟨"A - Lesson 3", none, 88⟩]

/-- A tool-manager state with two registered tools, the first most recently
invoked with one recorded source. -/
def demoTM : ToolManagerState :=
  ⟨[[⟨"A - Lesson 1", some "http://a/1", 93⟩], []], some 0⟩

/-! ## Theorems -/

/-- Helper: the executed tool results are as many as the response's tool-use
blocks, whatever the executor returns. -/
theorem execBlocks_length (e : ToolExec) (bs : List ContentBlock) :
    (execBlocks e bs).length = toolUseCount bs := by
  induction bs with
  | nil => rfl
  | cons b bs ih =>
    cases b <;> simp [execBlocks, toolUseCount, List.filterMap_cons] at ih ⊢ <;>
      simpa [execBlocks, toolUseCount] using ih

/-- C6: on empty, error-free results the Search Tool's `execute` returns
`"No relevant content found"` suffixed with the active filter clauses joined
by `" in "`, rendered as `course '<name>'` and/or `lesson <n>`; for the
filters `course_name="Python"`, `lesson_number=5` that suffix is exactly
`" in course 'Python' in lesson 5"`. -/
theorem c6_empty_results_message :
    (∀ (search : String → Option String → Option Nat → SearchResults)
       (ll : String → Nat → Option String) (cl : String → Option String)
       (q : String) (cn : Option String) (ln : Option Nat),
       (search q cn ln).error = none → (search q cn ln).documents = [] →
       (CourseSearchTool.execute search ll cl q cn ln).output =
         "No relevant content found" ++ filterInfo cn ln) ∧
    filterInfo (some "Python") (some 5) = " in course 'Python' in lesson 5" := by
  constructor
  · intro search ll cl q cn ln herr hdocs
    simp [CourseSearchTool.execute, SearchResults.is_empty, herr, hdocs]
  · rfl

/-- C6 witness: the concrete input of the claim. -/
theorem c6_empty_results_message_witness :
    (CourseSearchTool.execute (fun _ _ _ => ⟨[], [], [], none⟩)
        (fun _ _ => none) (fun _ => none) "topic" (some "Python") (some 5)).output
      = "No relevant content found in course 'Python' in lesson 5" := by
  have h := c6_empty_results_message.1 (fun _ _ _ => ⟨[], [], [], none⟩)
    (fun _ _ => none) (fun _ => none) "topic" (some "Python") (some 5) rfl rfl
  rw [h]
  rfl

/-- C7: the per-row relevance score is `max(0, round(100 - d*50))`; at
`d = 0.15` it lands on the rounding boundary `{92, 93}`; every `d ≥ 2` gives
score `0`; and on a successful search the recorded sources are the map of the
row constructor over the rows in the index's own order - the score never
reorders rows. -/
theorem c7_relevance_score :
    (∀ d : ℚ, relevanceScore d = max 0 (round ((100 : ℚ) - d * 50))) ∧
    (relevanceScore (3 / 20) = 92 ∨ relevanceScore (3 / 20) = 93) ∧
    (∀ d : ℚ, 2 ≤ d → relevanceScore d = 0) ∧
    (∀ (ll : String → Nat → Option String) (cl : String → Option String)
       (m : RowMeta) (d : ℚ), (mkSource ll cl m d).score = relevanceScore d) ∧
    (∀ (search : String → Option String → Option Nat → SearchResults)
       (ll : String → Nat → Option String) (cl : String → Option String)
       (q : String) (cn : Option String) (ln : Option Nat),
       (search q cn ln).error = none → (search q cn ln).is_empty = false →
       (CourseSearchTool.execute search ll cl q cn ln).last_sources =
         (searchRows (search q cn ln)).map
           (fun row => mkSource ll cl row.2.1 row.2.2)) := by
  refine ⟨fun d => rfl, ?_, ?_, fun ll cl m d => rfl, ?_⟩
  · right
    have h1 : (100 : ℚ) - (3 / 20) * 50 + 1 / 2 = ((93 : ℤ) : ℚ) := by norm_num
    rw [relevanceScore, round_eq, h1, Int.floor_intCast]
    exact max_eq_right (by norm_num)
  · intro d hd
    have hlt : (100 : ℚ) - d * 50 + 1 / 2 < 1 := by linarith
    have hfl : ⌊(100 : ℚ) - d * 50 + 1 / 2⌋ ≤ 0 := by
      have := Int.floor_lt.mpr (show (100 : ℚ) - d * 50 + 1 / 2 < ((1 : ℤ) : ℚ) by
        exact_mod_cast hlt)
      omega
    unfold relevanceScore
    rw [round_eq]
    exact max_eq_left hfl
  · intro search ll cl q cn ln herr hne
    simp [CourseSearchTool.execute, herr, hne]

/-- C7 witness: the theorem applied at the boundary distance and at
distance 2 with a concrete one-row search. -/
theorem c7_relevance_score_witness :
    (relevanceScore (3 / 20) = 92 ∨ relevanceScore (3 / 20) = 93) ∧
    relevanceScore 2 = 0 ∧
    (CourseSearchTool.execute
        (fun _ _ _ => ⟨["d"], [⟨"Python", some 1⟩], [3 / 20], none⟩)
        (fun _ _ => none) (fun _ => none) "q" none none).last_sources =
      (searchRows ⟨["d"], [⟨"Python", some 1⟩], [3 / 20], none⟩).map
        (fun row => mkSource (fun _ _ => none) (fun _ => none) row.2.1 row.2.2) := by
  refine ⟨c7_relevance_score.2.1, c7_relevance_score.2.2.1 2 le_rfl, ?_⟩
  exact c7_relevance_score.2.2.2.2
    (fun _ _ _ => ⟨["d"], [⟨"Python", some 1⟩], [3 / 20], none⟩)
    (fun _ _ => none) (fun _ => none) "q" none none rfl rfl

/-- C8: every `SearchResults` produced by the Gateway's constructors has
empty sequences whenever `error` is set, keeps the three parallel sequences
the same length, and `is_empty` holds exactly when the documents sequence has
zero length. -/
theorem c8_search_results_invariants (r : SearchResults)
    (hr : ProducedSearchResults r) :
    (r.error.isSome → r.documents = [] ∧ r.metadata = [] ∧ r.distances = []) ∧
    (r.documents.length = r.metadata.length ∧
     r.metadata.length = r.distances.length) ∧
    (r.is_empty = true ↔ r.documents.length = 0) := by
  rcases hr with ⟨docs, metas, dists, h1, h2, rfl⟩ | ⟨msg, rfl⟩
  · refine ⟨?_, ⟨h1, h2⟩, ?_⟩
    · intro h
      simp [SearchResults.from_chroma] at h
    · simp [SearchResults.from_chroma, SearchResults.is_empty,
        List.isEmpty_iff, List.length_eq_zero]
  · refine ⟨fun _ => ⟨rfl, rfl, rfl⟩, ⟨rfl, rfl⟩, by
      simp [SearchResults.empty, SearchResults.is_empty]⟩

/-- C8 witness: the invariants at a concrete error-constructed value. -/
theorem c8_search_results_invariants_witness :
    (SearchResults.empty "Search error: connection failed").documents = [] ∧
    (SearchResults.empty "Search error: connection failed").is_empty = true := by
  have h := c8_search_results_invariants
    (SearchResults.empty "Search error: connection failed")
    (Or.inr ⟨"Search error: connection failed", rfl⟩)
  exact ⟨(h.1 rfl).1, h.2.2.mpr rfl⟩

/-- C9: invoking a name registered by no tool returns
`"Tool '<name>' not found"`; the invocation is a total function into strings,
so it never raises to the caller. -/
theorem c9_unknown_tool (tools : List RegisteredTool) (name : String)
    (params : ToolParams) (h : ∀ t ∈ tools, t.name ≠ name) :
    ToolManager.execute_tool tools name params =
      "Tool '" ++ name ++ "' not found" := by
  unfold ToolManager.execute_tool
  have hfind : tools.find? (fun t => t.name == name) = none := by
    rw [List.find?_eq_none]
    intro t ht
    simpa using h t ht
  rw [hfind]

/-- C9 witness: the unregistered name of the repository's test. -/
theorem c9_unknown_tool_witness :
    ToolManager.execute_tool [] "nonexistent_tool" [] =
      "Tool 'nonexistent_tool' not found" := by
  have h := c9_unknown_tool [] "nonexistent_tool" [] (by simp)
  rw [h]
  decide

/-- Helper: under a model that requests a tool use (exactly one tool-use
block) on every tools-offered call, the loop's trace is fully determined:
`R+1` tools-offered calls, one final call without tools, `R` invocations and
`R` rounds. -/
theorem toolLoop_always_tool (m : Model) (e : ToolExec) (sys : String)
    (htool : ∀ msgs, (m sys msgs true).stop_reason = StopReason.tool_use)
    (hone : ∀ msgs, toolUseCount (m sys msgs true).content = 1) :
    ∀ (R : Nat) (msgs : List Message),
      (toolLoop m e sys R msgs).calls.map Prod.fst =
        List.replicate (R + 1) true ++ [false] ∧
      (toolLoop m e sys R msgs).toolInvocations = R ∧
      (toolLoop m e sys R msgs).toolRounds = R := by
  intro R
  induction R with
  | zero =>
    intro msgs
    simp [toolLoop, htool msgs]
  | succ r ih =>
    intro msgs
    have hrest := ih (msgs ++
      [⟨Role.assistant, MessageContent.blocks (m sys msgs true).content⟩,
       ⟨Role.user, MessageContent.toolResults (execBlocks e (m sys msgs true).content)⟩])
    simp only [toolLoop, htool msgs, if_pos, List.map_cons]
    refine ⟨?_, ?_, ?_⟩
    · rw [hrest.1]
      simp [List.replicate_succ]
    · rw [hrest.2.1, execBlocks_length, hone msgs]
    · rw [hrest.2.2]

/-- Helper: every run of the loop makes at least one model call. -/
theorem toolLoop_calls_ne_nil (m : Model) (e : ToolExec) (sys : String) :
    ∀ (R : Nat) (msgs : List Message), (toolLoop m e sys R msgs).calls ≠ [] := by
  intro R msgs
  cases R <;> simp only [toolLoop] <;> split <;> simp

/-- Helper: every consumed tool round is followed by at least one further
model call: the call count strictly exceeds the round count. -/
theorem toolLoop_rounds_lt_calls (m : Model) (e : ToolExec) (sys : String) :
    ∀ (R : Nat) (msgs : List Message),
      (toolLoop m e sys R msgs).toolRounds + 1 ≤
        (toolLoop m e sys R msgs).calls.length := by
  intro R
  induction R with
  | zero =>
    intro msgs
    simp only [toolLoop]
    split <;> simp
  | succ r ih =>
    intro msgs
    simp only [toolLoop]
    split
    · have := ih (msgs ++
        [⟨Role.assistant, MessageContent.blocks (m sys msgs true).content⟩,
         ⟨Role.user, MessageContent.toolResults (execBlocks e (m sys msgs true).content)⟩])
      simp only [List.length_cons]
      omega
    · simp

/-- Helper: the loop's termination and counting are determined by the
sequence of model responses it receives (and the round bound), never by the
tool-result text: two runs of any models and any tool executors that receive
the same responses make the same number of model calls, tool invocations and
tool rounds. -/
theorem toolLoop_det :
    ∀ (R : Nat) (m m' : Model) (e e' : ToolExec) (sys sys' : String)
      (msgs msgs' : List Message),
      (toolLoop m e sys R msgs).calls.map Prod.snd =
        (toolLoop m' e' sys' R msgs').calls.map Prod.snd →
      (toolLoop m e sys R msgs).calls.length =
          (toolLoop m' e' sys' R msgs').calls.length ∧
        (toolLoop m e sys R msgs).toolInvocations =
          (toolLoop m' e' sys' R msgs').toolInvocations ∧
        (toolLoop m e sys R msgs).toolRounds =
          (toolLoop m' e' sys' R msgs').toolRounds := by
  intro R
  induction R with
  | zero =>
    intro m m' e e' sys sys' msgs msgs' hmap
    have hlen := congrArg List.length hmap
    simp only [List.length_map] at hlen
    refine ⟨hlen, ?_, ?_⟩ <;> simp only [toolLoop] <;> split <;> split <;> rfl
  | succ r ih =>
    intro m m' e e' sys sys' msgs msgs' hmap
    by_cases h1 : (m sys msgs true).stop_reason = StopReason.tool_use <;>
      by_cases h2 : (m' sys' msgs' true).stop_reason = StopReason.tool_use
    · simp only [toolLoop, if_pos h1, if_pos h2, List.map_cons] at hmap ⊢
      have hhead : m sys msgs true = m' sys' msgs' true := (List.cons.injEq _ _ _ _).mp hmap |>.1
      have htail := (List.cons.injEq _ _ _ _).mp hmap |>.2
      have hrec := ih m m' e e' sys sys' _ _ htail
      refine ⟨by simpa using hrec.1, ?_, by simpa using hrec.2.2⟩
      rw [execBlocks_length, execBlocks_length, hrec.2.1, hhead]
    · exfalso
      simp only [toolLoop, if_pos h1, if_neg h2, List.map_cons, List.map_nil] at hmap
      have htails := ((List.cons.injEq _ _ _ _).mp hmap).2
      exact toolLoop_calls_ne_nil m e sys r _ (List.map_eq_nil_iff.mp htails)
    · exfalso
      simp only [toolLoop, if_neg h1, if_pos h2, List.map_cons, List.map_nil] at hmap
      have htails := ((List.cons.injEq _ _ _ _).mp hmap.symm).2
      exact toolLoop_calls_ne_nil m' e' sys' r _ (List.map_eq_nil_iff.mp htails)
    · simp [toolLoop, h1, h2]

/-- C1: for every model behaviour that requests exactly one tool use on every
tools-offered call, `generate_response` with round bound `R` makes exactly
`R+2` model calls — the tools field sent on the first `R+1` (1 initial plus
`R` tool-bearing rounds) and absent on the one forced final call — and
executes exactly `R` tool invocations, never `R+1`. -/
theorem c1_round_bound (m : Model) (e : ToolExec) (q : String)
    (h : Option String) (R : Nat)
    (htool : ∀ sys msgs, (m sys msgs true).stop_reason = StopReason.tool_use)
    (hone : ∀ sys msgs, toolUseCount (m sys msgs true).content = 1) :
    (generate_response m e q h true R).modelCalls = R + 2 ∧
    (generate_response m e q h true R).toolInvocations = R ∧
    (generate_response m e q h true R).calls.map Prod.fst =
      List.replicate (R + 1) true ++ [false] := by
  have hl := toolLoop_always_tool m e (buildSystem h) (htool _) (hone _) R
    [⟨Role.user, MessageContent.text q⟩]
  have hcalls : (generate_response m e q h true R).calls.length = R + 2 := by
    have := congrArg List.length hl.1
    simp only [List.length_map, List.length_append, List.length_replicate,
      List.length_singleton] at this
    simpa [generate_response] using this
  exact ⟨hcalls, by simpa [generate_response] using hl.2.1,
    by simpa [generate_response] using hl.1⟩

/-- C1 witness: the round bound 2 of the repository (the test
`test_max_rounds_enforced`): 4 model calls, 2 tool invocations. -/
theorem c1_round_bound_witness :
    (generate_response alwaysToolModel (fun _ _ => "Tool result")
        "Complex query" none true 2).modelCalls = 4 ∧
    (generate_response alwaysToolModel (fun _ _ => "Tool result")
        "Complex query" none true 2).toolInvocations = 2 := by
  have h := c1_round_bound alwaysToolModel (fun _ _ => "Tool result")
    "Complex query" none 2 (fun _ _ => rfl) (fun _ _ => rfl)
  exact ⟨h.1, h.2.1⟩

/-- C2: the loop never special-cases tool-result text (such as `"Error:"`- or
`"Search error:"`-prefixed strings) into early termination.  First: the
numbers of model calls, tool invocations and tool rounds are functions of the
received model-response sequence and the round bound alone — two runs with
any tool executors (one may return only fatal-failure text) that see the same
responses count identically.  Second: every consumed tool round — error
result or not — is followed by at least one further model call. -/
theorem c2_error_text_no_special_case (m m' : Model) (e e' : ToolExec)
    (q q' : String) (h h' : Option String) (R : Nat) :
    ((generate_response m e q h true R).calls.map Prod.snd =
        (generate_response m' e' q' h' true R).calls.map Prod.snd →
      (generate_response m e q h true R).modelCalls =
          (generate_response m' e' q' h' true R).modelCalls ∧
        (generate_response m e q h true R).toolInvocations =
          (generate_response m' e' q' h' true R).toolInvocations ∧
        (generate_response m e q h true R).toolRounds =
          (generate_response m' e' q' h' true R).toolRounds) ∧
    (generate_response m e q h true R).toolRounds + 1 ≤
      (generate_response m e q h true R).modelCalls := by
  constructor
  · intro hmap
    have hd := toolLoop_det R m m' e e' (buildSystem h) (buildSystem h')
      [⟨Role.user, MessageContent.text q⟩] [⟨Role.user, MessageContent.text q'⟩]
      (by simpa [generate_response] using hmap)
    exact ⟨by simpa [generate_response, OrchTrace.modelCalls] using hd.1,
      by simpa [generate_response] using hd.2.1,
      by simpa [generate_response] using hd.2.2⟩
  · simpa [generate_response, OrchTrace.modelCalls] using
      toolLoop_rounds_lt_calls m e (buildSystem h) R
        [⟨Role.user, MessageContent.text q⟩]

/-- C2 witness: two identical-response runs, one whose tool executor returns
only the fatal text `"Error: Tool execution failed"`, count identically, and
the error run still calls the model after its rounds. -/
theorem c2_error_text_no_special_case_witness :
    ((generate_response alwaysToolModel (fun _ _ => "ok") "q" none true 1).modelCalls =
        (generate_response alwaysToolModel
          (fun _ _ => "Error: Tool execution failed") "q" none true 1).modelCalls ∧
      (generate_response alwaysToolModel (fun _ _ => "ok") "q" none true 1).toolInvocations =
        (generate_response alwaysToolModel
          (fun _ _ => "Error: Tool execution failed") "q" none true 1).toolInvocations ∧
      (generate_response alwaysToolModel (fun _ _ => "ok") "q" none true 1).toolRounds =
        (generate_response alwaysToolModel
          (fun _ _ => "Error: Tool execution failed") "q" none true 1).toolRounds) ∧
    (generate_response alwaysToolModel (fun _ _ => "ok") "q" none true 1).toolRounds + 1 ≤
      (generate_response alwaysToolModel (fun _ _ => "ok") "q" none true 1).modelCalls := by
  have h := c2_error_text_no_special_case alwaysToolModel alwaysToolModel
    (fun _ _ => "ok") (fun _ _ => "Error: Tool execution failed") "q" "q" none none 1
  exact ⟨h.1 (by decide), h.2⟩

/-- Helper: `bestOf` never returns `none` on a non-empty candidate list. -/
theorem bestOf_eq_none (l : List String) :
    ∀ u : List String, bestOf l u = none ↔ u = [] := by
  intro u
  cases u with
  | nil => simp [bestOf]
  | cons t ts =>
    cases hb : bestOf l ts with
    | none => simp [bestOf, hb]
    | some c =>
      simp only [bestOf, hb]
      constructor
      · intro h
        split at h <;> simp at h
      · intro h
        simp at h

/-- Helper: the chosen most-common candidate is one of the candidates. -/
theorem bestOf_mem (l : List String) : ∀ (u : List String) (b : String),
    bestOf l u = some b → b ∈ u := by
  intro u
  induction u with
  | nil => intro b h; simp [bestOf] at h
  | cons t ts ih =>
    intro b h
    cases hb : bestOf l ts with
    | none =>
      simp only [bestOf, hb, Option.some.injEq] at h
      exact h ▸ List.mem_cons_self t ts
    | some c =>
      simp only [bestOf, hb] at h
      split at h
      · simp only [Option.some.injEq] at h
        exact h ▸ List.mem_cons_self t ts
      · simp only [Option.some.injEq] at h
        exact h ▸ List.mem_cons_of_mem t (ih c hb)

/-- Helper: the chosen candidate's occurrence count in `l` is maximal among
the candidates. -/
theorem bestOf_count_le (l : List String) : ∀ (u : List String) (b : String),
    bestOf l u = some b → ∀ t ∈ u, l.count t ≤ l.count b := by
  intro u
  induction u with
  | nil => intro b h; simp [bestOf] at h
  | cons x xs ih =>
    intro b h t ht
    cases hb : bestOf l xs with
    | none =>
      have hxs : xs = [] := (bestOf_eq_none l xs).mp hb
      subst hxs
      simp only [bestOf, hb, Option.some.injEq] at h
      rcases List.mem_cons.mp ht with rfl | habs
      · exact h ▸ le_rfl
      · simp at habs
    | some c =>
      simp only [bestOf, hb] at h
      by_cases hle : l.count c ≤ l.count x
      · rw [if_pos hle] at h
        simp only [Option.some.injEq] at h
        subst h
        rcases List.mem_cons.mp ht with rfl | hmem
        · exact le_rfl
        · exact le_trans (ih c hb t hmem) hle
      · rw [if_neg hle] at h
        simp only [Option.some.injEq] at h
        subst h
        rcases List.mem_cons.mp ht with rfl | hmem
        · exact le_of_lt (lt_of_not_le hle)
        · exact ih c hb t hmem

/-- Helper: first-occurrence deduplication yields only elements of the input. -/
theorem firstOccAux_subset : ∀ (u seen : List String) (t : String),
    t ∈ firstOccAux seen u → t ∈ u := by
  intro u
  induction u with
  | nil => intro seen t h; simp [firstOccAux] at h
  | cons x xs ih =>
    intro seen t h
    simp only [firstOccAux] at h
    by_cases hx : x ∈ seen
    · rw [if_pos hx] at h
      exact List.mem_cons_of_mem x (ih seen t h)
    · rw [if_neg hx] at h
      rcases List.mem_cons.mp h with rfl | h1
      · exact List.mem_cons_self t xs
      · exact List.mem_cons_of_mem x (ih _ t h1)

/-- Helper: every element of the input is either already seen or kept by the
first-occurrence deduplication. -/
theorem mem_firstOccAux : ∀ (u seen : List String) (t : String),
    t ∈ u → t ∈ seen ∨ t ∈ firstOccAux seen u := by
  intro u
  induction u with
  | nil => intro seen t h; simp at h
  | cons x xs ih =>
    intro seen t h
    simp only [firstOccAux]
    by_cases hx : x ∈ seen
    · rw [if_pos hx]
      rcases List.mem_cons.mp h with rfl | hxs
      · exact Or.inl hx
      · exact ih seen t hxs
    · rw [if_neg hx]
      rcases List.mem_cons.mp h with rfl | hxs
      · exact Or.inr (List.mem_cons_self t _)
      · rcases ih (x :: seen) t hxs with hs | hf
        · rcases List.mem_cons.mp hs with rfl | hseen
          · exact Or.inr (List.mem_cons_self t _)
          · exact Or.inl hseen
        · exact Or.inr (List.mem_cons_of_mem x hf)

/-- Helper: the primary course is a recovered title of maximal frequency. -/
theorem mostCommonTitle_spec (l : List String) (p : String)
    (hp : mostCommonTitle l = some p) :
    p ∈ l ∧ ∀ t ∈ l, l.count t ≤ l.count p := by
  constructor
  · exact firstOccAux_subset l [] p (bestOf_mem l _ p hp)
  · intro t ht
    rcases mem_firstOccAux l [] t ht with h | h
    · simp at h
    · exact bestOf_count_le l _ p hp t h

/-- C5: the lesson-link pass is the identity on an empty sources list, and
whenever it does rewrite (a primary course exists), the whole pass equals the
lesson rewrite with every `Lesson N` lookup made for that one primary course,
which is a source-recovered title (split on the literal `" - Lesson"`
delimiter by `extractTitles`) of maximal frequency — even when the sources
span several courses. -/
theorem c5_lesson_links_primary (lookup : String → Nat → Option String)
    (resp : String) :
    add_lesson_links lookup resp [] = resp ∧
    ∀ (sources : List Source) (p : String),
      mostCommonTitle (extractTitles sources) = some p →
      add_lesson_links lookup resp sources = lessonPass (lookup p) resp ∧
      p ∈ extractTitles sources ∧
      ∀ t ∈ extractTitles sources,
        (extractTitles sources).count t ≤ (extractTitles sources).count p := by
  refine ⟨rfl, ?_⟩
  intro sources p hp
  have hspec := mostCommonTitle_spec _ p hp
  refine ⟨?_, hspec.1, hspec.2⟩
  cases sources with
  | nil => simp [extractTitles, mostCommonTitle, firstOccAux, bestOf] at hp
  | cons s ss => simp only [add_lesson_links, hp]

/-- C5 witness: sources spanning two courses; the primary course `"A"` wins
2:1 and drives the single lookup. -/
theorem c5_lesson_links_primary_witness :
    add_lesson_links demoLookup "See Lesson 2" [] = "See Lesson 2" ∧
    add_lesson_links demoLookup "See Lesson 2" demoSources =
      lessonPass (demoLookup "A") "See Lesson 2" ∧
    "A" ∈ extractTitles demoSources ∧
    add_lesson_links demoLookup "See Lesson 2" demoSources =
      "See [Lesson 2](http://a/2)" := by
  have h := c5_lesson_links_primary demoLookup "See Lesson 2"
  have h2 := h.2 demoSources "A" (by decide)
  exact ⟨h.1, h2.1, h2.2.1, by rw [h2.1]; decide⟩

/-- C10: `RAGSystem.query` clears every registered tool's `last_sources`
before returning (also when nothing was recorded), and the sources list it
returns is the snapshot taken from the tool manager before the reset, so the
reset never empties a non-empty returned list. -/
theorem c10_sources_reset (courses : List CourseMeta)
    (lookup : String → Nat → Option String) (ai : String)
    (tm : ToolManagerState) :
    (∀ s ∈ ((RAGSystem.query courses lookup ai tm).2).toolSources,
       s = ([] : List Source)) ∧
    (RAGSystem.query courses lookup ai tm).1.2 =
      ToolManager.get_last_sources tm ∧
    (ToolManager.get_last_sources tm ≠ [] →
      (RAGSystem.query courses lookup ai tm).1.2 ≠ []) := by
  refine ⟨?_, rfl, fun h => h⟩
  intro s hs
  simp only [RAGSystem.query, ToolManager.reset_sources, List.mem_map] at hs
  obtain ⟨a, -, h⟩ := hs
  exact h.symm

/-- C10 witness: a concrete two-tool state with one recorded source. -/
theorem c10_sources_reset_witness :
    (∀ s ∈ ((RAGSystem.query [] noLessonLinks "resp" demoTM).2).toolSources,
       s = ([] : List Source)) ∧
    (RAGSystem.query [] noLessonLinks "resp" demoTM).1.2 =
      ToolManager.get_last_sources demoTM ∧
    (RAGSystem.query [] noLessonLinks "resp" demoTM).1.2 ≠ [] := by
  have h := c10_sources_reset [] noLessonLinks "resp" demoTM
  exact ⟨h.1, h.2.1, h.2.2 (by decide)⟩

/-- C3 (failing-input evidence): the annotation pass is not idempotent.  On
the catalog `crossLinkCatalog` — the course `"B"` whose link text contains
the other course's title `"Alpha"` — one application of the course-link pass
followed by the (here vacuous) lesson-link pass turns `"B"` into
`"[B](http://Alpha)"`, and a second application rewrites the `"Alpha"`
inside the link produced by the first, changing the string again. -/
theorem c3_idempotence_fails :
    annotateLinks crossLinkCatalog noLessonLinks [] "B" = "[B](http://Alpha)" ∧
    annotateLinks crossLinkCatalog noLessonLinks []
        (annotateLinks crossLinkCatalog noLessonLinks [] "B") =
      "[B](http://[Alpha](http://x))" ∧
    annotateLinks crossLinkCatalog noLessonLinks []
        (annotateLinks crossLinkCatalog noLessonLinks [] "B") ≠
      annotateLinks crossLinkCatalog noLessonLinks [] "B" := by
  refine ⟨by decide, by decide, by decide⟩

/-- C4 (failing-input evidence): on a catalog holding both
`"MCP: Build Rich-Context AI Apps"` and the distinct shorter course `"MCP"`
(both with links), the course-link pass applied to the longer title does
link the full longer title, but then also rewrites the `"MCP"` inside the
link text it just produced — the partial match the code's own comment says
must never be replaced. -/
theorem c4_partial_match_rewritten :
    add_course_links mcpCatalog "MCP: Build Rich-Context AI Apps" =
      "[[MCP](https://ex.com/b): Build Rich-Context AI Apps](https://ex.com/a)" := by
  decide
